import Mathlib

/-!
 Verification of the ledger engine shared by the two near-duplicate desktop
 expense programs of this repository (`src/xxxxxxxxx.py`, embedded in
 namespace `Xxx`, and `src/utils.py`, embedded in namespace `Utils`).

 Modelling conventions:
 * Python floats are modelled as exact rationals `ℚ`; `round(x, 2)` is
   modelled by `round2` (round half to even on the scaled rational, the
   rounding Python's `round` implements on decimal ties).
 * Network calls are modelled by explicit parameters: the raw rate-service
   response is a `FetchResult` (for the two module-level lookup functions),
   and the `Ledger` methods take a `RateOracle` giving the `Option ℚ`
   results of those lookups for each query.
 * Python functions that can raise model the raise as `Except`/an error
   component: `Except.error s` (resp. a `some s` error component of a
   result pair) stands for an uncaught Python exception named `s`, and the
   state component of a pair is the object state at the moment the
   exception propagates (Python mutations performed before the raise
   persist).
 * `csv` files are modelled at the parsed-cell level: a written cell
   produced from a Python float is `Cell.num q` (Python guarantees
   `float(str(x)) == x`, so reading such a cell back yields exactly `q`);
   a textual cell from an arbitrary file is `Cell.str s` and is coerced by
   `pyFloat` (a model of Python `float(...)` on plain decimal literals).
-/

/- Batteries marks the four core rational operations `[irreducible]`,
which blocks `decide` on concrete ledgers; restore the default
reducibility locally so that evaluations go through. -/
attribute [local semireducible] Rat.mul Rat.add Rat.sub Rat.inv

/-- Round half to even of a rational to an integer; `qfloor` is the exact
floor computed with Euclidean division (denominators are positive). -/
def qfloor (q : ℚ) : ℤ := Int.ediv q.num (q.den : ℤ)

/-- Round a rational to the nearest integer, ties to even — the tie rule of
Python's `round`. -/
def rhe (q : ℚ) : ℤ :=
  let f := qfloor q
  let r := q - (f : ℚ)
  if r < 1/2 then f else if 1/2 < r then f + 1 else if Even f then f else f + 1

/-- Model of Python `round(x, 2)`. -/
def round2 (q : ℚ) : ℚ := ((rhe (q * 100) : ℚ)) / 100

/-- Model of Python truthiness fallback `x or d` on an optional float
(`None` and `0.0` are falsy). -/
def truthyOr (x : Option ℚ) (d : ℚ) : ℚ :=
  match x with
  | some v => if v = 0 then d else v
  | none => d

/-- Model of Python truthiness fallback `x or d` on an optional string
(`None` and `""` are falsy), as in `base_currency if base_currency else
self.base_currency` and `date or datetime.now().strftime(...)`. -/
def pyOrS (x : Option String) (d : String) : String :=
  match x with
  | some s => if s = "" then d else s
  | none => d

/-- Lookup of a currency code in the `rates` mapping of a service
response (models both `data['rates'][t]` guarded by `t in data['rates']`
and `data['rates'].get(t)`). -/
def findRate (rs : List (String × ℚ)) (t : String) : Option ℚ :=
  match rs with
  | [] => none
  | (c, v) :: rest => if c = t then some v else findRate rest t

/-- Split a character list at every occurrence of `c` (an executable,
kernel-reducible counterpart of `str.split`). -/
def splitOnChar (c : Char) : List Char → List (List Char)
  | [] => [[]]
  | a :: t =>
      if a = c then [] :: splitOnChar c t
      else
        match splitOnChar c t with
        | [] => [[a]]
        | h :: r => (a :: h) :: r

/-- ASCII whitespace (the whitespace `float(...)` and `str.strip()` remove;
the exotic Unicode blanks Python also strips are not modelled). -/
def isSpaceChar (c : Char) : Bool := c = ' ' || c = '\t' || c = '\n' || c = '\r'

/-- Strip leading and trailing whitespace from a character list. -/
def trimChars (l : List Char) : List Char :=
  ((l.dropWhile isSpaceChar).reverse.dropWhile isSpaceChar).reverse

/-- Model of Python `str.strip()`. -/
def pyStrip (s : String) : String := ⟨trimChars s.data⟩

/-- Value of a digit string (used by the decimal-literal and date models). -/
def digitsVal (l : List Char) : ℕ :=
  l.foldl (fun a c => a * 10 + (c.toNat - 48)) 0

/-- Nonempty all-digit string. -/
def allDigits (l : List Char) : Bool := !l.isEmpty && l.all Char.isDigit

/-- Model of `datetime.strptime(s, "%Y-%m-%d")` succeeding (approximate in
the day-of-month upper bound, which no claim depends on). -/
def parseYmd (s : String) : Bool :=
  match splitOnChar '-' s.data with
  | [y, m, d] =>
      allDigits y && allDigits m && allDigits d &&
      (y.length == 4) && decide (m.length ≤ 2) && decide (d.length ≤ 2) &&
      decide (1 ≤ digitsVal m) && decide (digitsVal m ≤ 12) &&
      decide (1 ≤ digitsVal d) && decide (digitsVal d ≤ 31)
  | _ => false

/-- Model of `datetime.strptime(s, "%Y-%m")` succeeding. -/
def parseYm (s : String) : Bool :=
  match splitOnChar '-' s.data with
  | [y, m] =>
      allDigits y && allDigits m && (y.length == 4) &&
      decide (m.length ≤ 2) && decide (1 ≤ digitsVal m) && decide (digitsVal m ≤ 12)
  | _ => false

/-- Model of `datetime.strptime(s, "%Y")` succeeding. -/
def parseY (s : String) : Bool :=
  match splitOnChar '-' s.data with
  | [y] => allDigits y
  | _ => false

/-- Model of the date-format loop of `Xxx.get_historical_exchange_rate`:
the date parses under one of `%Y-%m-%d`, `%Y-%m`, `%Y`. -/
def parseAnyDate (s : String) : Bool := parseYmd s || parseYm s || parseY s

/-- Outcome of one HTTP request to the rate service, as far as the source
observes it: a network/timeout/JSON-decode failure (`requests` raises a
`RequestException`, which every lookup catches), or a decoded JSON body
with its HTTP status and its optional `rates` mapping. -/
inductive FetchResult where
  | netErr : FetchResult
  | ok (status2xx : Bool) (rates : Option (List (String × ℚ))) : FetchResult
deriving DecidableEq

/-- `get_historical_exchange_rate` of `src/xxxxxxxxx.py` (lines 25-74).
If base ≠ target it parses the date against the three formats (`None` when
all fail), then issues the request: a `RequestException` is caught and
gives `None`; a JSON body without a `rates` key raises an uncaught
`KeyError` at `data['rates']`; otherwise the target's entry or `None`.
If base = target it returns `1` without any request. -/
def Xxx.get_historical_exchange_rate (base_currency target_currency date_str : String)
    (fetch : FetchResult) : Except String (Option ℚ) :=
  if base_currency ≠ target_currency then
    if parseAnyDate date_str = false then .ok none
    else
      match fetch with
      | .netErr => .ok none
      | .ok _ none => .error "KeyError"
      | .ok _ (some rs) => .ok (findRate rs target_currency)
  else .ok (some 1)

/-- `get_exchange_rate` of `src/xxxxxxxxx.py` (lines 77-105): no
base-equals-target shortcut; always issues the request. -/
def Xxx.get_exchange_rate (base_currency target_currency : String)
    (fetch : FetchResult) : Except String (Option ℚ) :=
  match fetch with
  | .netErr => .ok none
  | .ok _ none => .error "KeyError"
  | .ok _ (some rs) => .ok (findRate rs target_currency)

/-- `get_historical_exchange_rate` of `src/utils.py` (lines 26-56): returns
`1.0` immediately when base = target; catches `ValueError` (date parse) and
`RequestException` (network and `raise_for_status` on a non-2xx status);
`data['rates']` still raises an uncaught `KeyError` when the decoded body
has no `rates` key. -/
def Utils.get_historical_exchange_rate (base_currency target_currency date_str : String)
    (fetch : FetchResult) : Except String (Option ℚ) :=
  if base_currency = target_currency then .ok (some 1)
  else if parseYmd date_str = false then .ok none
  else
    match fetch with
    | .netErr => .ok none
    | .ok false _ => .ok none
    | .ok true none => .error "KeyError"
    | .ok true (some rs) => .ok (findRate rs target_currency)

/-- `get_exchange_rate` of `src/utils.py` (lines 59-85): returns `1.0`
immediately when base = target, otherwise like the historical lookup
without a date. -/
def Utils.get_exchange_rate (base_currency target_currency : String)
    (fetch : FetchResult) : Except String (Option ℚ) :=
  if base_currency = target_currency then .ok (some 1)
  else
    match fetch with
    | .netErr => .ok none
    | .ok false _ => .ok none
    | .ok true none => .error "KeyError"
    | .ok true (some rs) => .ok (findRate rs target_currency)

/-- One expense record, the dictionary appended by `Ledger.add` (fields in
source order). -/
structure Row where
  date : String
  base_amount : ℚ
  base_currency : String
  amount : ℚ
  target_currency : String
  category : String
  note : String
  exchange_rate : ℚ
deriving DecidableEq

/-- The `Ledger` state (both sources declare the same fields; in
`src/xxxxxxxxx.py` `__init__` stores the raw `get_exchange_rate` result,
which is `None` when the startup fetch fails, hence `Option ℚ`;
`src/utils.py` appends `or 1.0` and never stores `None`). -/
structure Ledger where
  rows : List Row
  month_budget : ℚ
  base_currency : String
  target_currency : String
  exchange_rate : Option ℚ
  target_currency_locked : Bool
deriving DecidableEq

/-- The `Option ℚ` results that the module-level lookup functions deliver
to the `Ledger` methods for each query they make (the methods consume the
lookups only through their returned value-or-`None`). -/
structure RateOracle where
  hist : String → String → String → Option ℚ
  latest : String → String → Option ℚ

/-- `Ledger.__init__` of `src/xxxxxxxxx.py`, parameterized by the startup
`get_exchange_rate("SGD", "CNY")` result. -/
def Xxx.init (startupRate : Option ℚ) : Ledger :=
  { rows := [], month_budget := 0, base_currency := "SGD", target_currency := "CNY",
    exchange_rate := startupRate, target_currency_locked := false }

/-- `Ledger.__init__` of `src/utils.py`: `get_exchange_rate("SGD","CNY") or 1.0`. -/
def Utils.init (startupRate : Option ℚ) : Ledger :=
  { rows := [], month_budget := 0, base_currency := "SGD", target_currency := "CNY",
    exchange_rate := some (truthyOr startupRate 1), target_currency_locked := false }

/-- The record dictionary `Ledger.add` appends (identical block in both
sources): `base_amount` is the passed amount rounded to 2 digits while the
converted `amount` is computed from the unrounded passed amount. -/
def addRecord (l : Ledger) (date_str : String) (amount : ℚ) (base_curr : String)
    (category note : String) (er : ℚ) : Ledger :=
  { l with rows := l.rows ++ [{
      date := date_str,
      base_amount := round2 amount,
      base_currency := base_curr,
      amount := round2 (amount * er),
      target_currency := l.target_currency,
      category := category,
      note := pyStrip note,
      exchange_rate := er }] }

/-- The first two fallback tiers of `Ledger.add` in `src/xxxxxxxxx.py`:
the historical rate for the record's date, else the latest rate (the
`exchange_rate` variable just before the `None` test of line 164). -/
def Xxx.resolveRate (l : Ledger) (o : RateOracle) (base_curr date_str : String) :
    Option ℚ :=
  match o.hist base_curr l.target_currency date_str with
  | some v => some v
  | none => o.latest base_curr l.target_currency

/-- `Ledger.add` of `src/xxxxxxxxx.py` (lines 133-181): historical rate,
then latest rate, then — on double failure — the cached default rate when
the record's currency equals the ledger's base currency (raising an
uncaught `TypeError` at the multiplication when that cached default is
`None`) and `1.0` otherwise. Result: new state plus an optional uncaught
exception (state unchanged when it raises). `today` stands for
`datetime.now().strftime("%Y-%m-%d")`. -/
def Xxx.add (l : Ledger) (o : RateOracle) (today : String) (amount : ℚ)
    (category note : String) (date base_currency : Option String) :
    Ledger × Option String :=
  let base_curr := pyOrS base_currency l.base_currency
  let date_str := pyOrS date today
  match Xxx.resolveRate l o base_curr date_str with
  | some er => (addRecord l date_str amount base_curr category note er, none)
  | none =>
      if base_curr = l.base_currency then
        match l.exchange_rate with
        | some er => (addRecord l date_str amount base_curr category note er, none)
        | none => (l, some "TypeError")
      else (addRecord l date_str amount base_curr category note 1, none)

/-- `Ledger.add` of `src/utils.py` (lines 113-158): historical rate, else
`get_exchange_rate(...) or 1.0` (truthiness: a `0.0` latest rate also
falls back to `1.0`); never raises and never consults the cached default. -/
def Utils.add (l : Ledger) (o : RateOracle) (today : String) (amount : ℚ)
    (category note : String) (date base_currency : Option String) : Ledger :=
  let base_curr := pyOrS base_currency l.base_currency
  let date_str := pyOrS date today
  let er := match o.hist base_curr l.target_currency date_str with
    | some v => v
    | none => truthyOr (o.latest base_curr l.target_currency) 1
  addRecord l date_str amount base_curr category note er

/-- `Ledger.set_target_currency` of `src/xxxxxxxxx.py` (lines 183-212):
when unlocked, sets and locks the target, then re-resolves each row with
`get_historical_exchange_rate` only, updating the row only under Python
truthiness `if exchange_rate:` (a `None` or `0.0` rate leaves the row —
including its `target_currency` — untouched); returns `True`. When locked,
no mutation, returns `False`. -/
def Xxx.set_target_currency (l : Ledger) (o : RateOracle) (currency : String) :
    Ledger × Bool :=
  if l.target_currency_locked then (l, false)
  else
    ({ l with
        target_currency := currency,
        target_currency_locked := true,
        rows := l.rows.map (fun row =>
          match o.hist row.base_currency currency row.date with
          | some er =>
              if er ≠ 0 then
                { row with exchange_rate := er,
                           amount := round2 (row.base_amount * er),
                           target_currency := currency }
              else row
          | none => row) },
      true)

/-- `Ledger.set_target_currency` of `src/utils.py` (lines 160-187): when
unlocked, sets and locks the target and re-resolves every row with
`get_historical_exchange_rate(...) or get_exchange_rate(...) or 1.0`,
always updating the row; returns `True`. When locked, returns `False`. -/
def Utils.set_target_currency (l : Ledger) (o : RateOracle) (currency : String) :
    Ledger × Bool :=
  if l.target_currency_locked then (l, false)
  else
    ({ l with
        target_currency := currency,
        target_currency_locked := true,
        rows := l.rows.map (fun row =>
          let er := truthyOr (o.hist row.base_currency currency row.date)
                      (truthyOr (o.latest row.base_currency currency) 1)
          { row with exchange_rate := er,
                     amount := round2 (row.base_amount * er),
                     target_currency := currency }) },
      true)

/-- The deletion loop of `Ledger.remove_by_indices`: `del self.rows[i]`
over an already-descending index list; an out-of-range index raises an
uncaught `IndexError`, with the deletions already performed persisting. -/
def delSorted {α : Type} : List α → List ℕ → List α × Option String
  | xs, [] => (xs, none)
  | xs, i :: rest =>
      if i < xs.length then delSorted (xs.eraseIdx i) rest
      else (xs, some "IndexError")

/-- Model of Python `sorted(indices, reverse=True)` (insertion sort by `≥`;
on natural numbers any descending sort yields the same value list). -/
def sortDesc (idxs : List ℕ) : List ℕ := idxs.insertionSort (· ≥ ·)

/-- `Ledger.remove_by_indices` (identical in both sources:
`src/xxxxxxxxx.py` lines 214-224, `src/utils.py` lines 189-199). -/
def remove_by_indices (l : Ledger) (indices : List ℕ) : Ledger × Option String :=
  let p := delSorted l.rows (sortDesc indices)
  ({ l with rows := p.1 }, p.2)

/-- One parsed CSV cell: `Cell.num q` is a cell that was written from the
Python float `q` (`float(str(q))` recovers exactly `q`); `Cell.str s` is a
textual cell of an arbitrary input file. -/
inductive Cell where
  | str (s : String)
  | num (q : ℚ)
deriving DecidableEq

/-- Unsigned decimal literal (`"12"`, `"12.5"`, `"12."`, `".5"`). -/
def parseUnsigned (l : List Char) : Option ℚ :=
  match splitOnChar '.' l with
  | [w] => if !w.isEmpty && w.all Char.isDigit then some (digitsVal w) else none
  | [w, f] =>
      if (!w.isEmpty || !f.isEmpty) && w.all Char.isDigit && f.all Char.isDigit then
        some ((digitsVal w : ℚ) + (digitsVal f : ℚ) / ((10 : ℚ) ^ f.length))
      else none
  | _ => none

/-- Model of Python `float(s)` on a string: strips whitespace, optional
sign, plain decimal literal; `none` models the `ValueError` raise.
(Exponent, `inf` and `nan` literals are not modelled; nothing here uses
them.) -/
def parseDecimal (s : String) : Option ℚ :=
  match trimChars s.data with
  | '-' :: rest => (parseUnsigned rest).map (fun q => -q)
  | '+' :: rest => parseUnsigned rest
  | l => parseUnsigned l

/-- Python `float(...)` applied to a cell. -/
def pyFloat : Cell → Option ℚ
  | .num q => some q
  | .str s => parseDecimal s

/-- One data row of a CSV file under the export header; `exchange_rate` is
optional because `load_csv` reads it with `row.get("exchange_rate", 1.0)`. -/
structure CsvRow where
  date : String
  base_amount : Cell
  base_currency : String
  amount : Cell
  target_currency : String
  category : String
  exchange_rate : Option Cell
  note : String
deriving DecidableEq

/-- `Ledger.save_csv` (identical in both sources): one CSV row per record,
numeric fields written as their stored float values. -/
def serializeRow (r : Row) : CsvRow :=
  { date := r.date, base_amount := .num r.base_amount,
    base_currency := r.base_currency, amount := .num r.amount,
    target_currency := r.target_currency, category := r.category,
    exchange_rate := some (.num r.exchange_rate), note := r.note }

def save_csv (l : Ledger) : List CsvRow := l.rows.map serializeRow

/-- The per-row numeric coercions of `load_csv`; `none` models the
`ValueError` raised by `float(...)` on a malformed field. -/
def parseCsvRow (cr : CsvRow) : Option Row :=
  match pyFloat cr.base_amount, pyFloat cr.amount,
        pyFloat (cr.exchange_rate.getD (.num 1)) with
  | some ba, some am, some er =>
      some { date := cr.date, base_amount := ba, base_currency := cr.base_currency,
             amount := am, target_currency := cr.target_currency,
             category := cr.category, note := cr.note, exchange_rate := er }
  | _, _, _ => none

/-- The reader loop of `load_csv`: rows parsed so far are already appended
when a coercion failure aborts the loop. -/
def loadLoop (acc : List Row) : List CsvRow → List Row × Option String
  | [] => (acc, none)
  | cr :: rest =>
      match parseCsvRow cr with
      | some r => loadLoop (acc ++ [r]) rest
      | none => (acc, some "ValueError")

/-- `Ledger.load_csv` (identical in both sources: `src/xxxxxxxxx.py` lines
268-289, `src/utils.py` lines 243-264): clears `rows` first, then appends
row by row; a coercion failure propagates with the partial state. Only
when at least one row was loaded does it adopt the first row's
`target_currency` (default `"CNY"` when that field is empty) and set
`target_currency_locked`. -/
def load_csv (l : Ledger) (file : List CsvRow) : Ledger × Option String :=
  match loadLoop [] file with
  | (rows, some e) => ({ l with rows := rows }, some e)
  | (rows, none) =>
      match rows with
      | [] => ({ l with rows := rows }, none)
      | first :: _ =>
          if first.target_currency ≠ "" then
            ({ l with rows := rows, target_currency := first.target_currency,
                      target_currency_locked := true }, none)
          else
            ({ l with rows := rows, target_currency := "CNY",
                      target_currency_locked := true }, none)

/-- The ledger operations a session can perform (the public surface the
spec's lock state machine ranges over). -/
inductive Op where
  | addOp (today : String) (amount : ℚ) (category note : String)
      (date base_currency : Option String) : Op
  | setTargetOp (currency : String) : Op
  | removeOp (indices : List ℕ) : Op
  | loadOp (file : List CsvRow) : Op

/-- One session step of the `src/xxxxxxxxx.py` ledger: the state after the
operation (including the state in which an exception propagates). -/
def Xxx.step (o : RateOracle) (l : Ledger) : Op → Ledger
  | .addOp today amount category note date base_currency =>
      (Xxx.add l o today amount category note date base_currency).1
  | .setTargetOp currency => (Xxx.set_target_currency l o currency).1
  | .removeOp indices => (remove_by_indices l indices).1
  | .loadOp file => (load_csv l file).1

/-- One session step of the `src/utils.py` ledger. -/
def Utils.step (o : RateOracle) (l : Ledger) : Op → Ledger
  | .addOp today amount category note date base_currency =>
      Utils.add l o today amount category note date base_currency
  | .setTargetOp currency => (Utils.set_target_currency l o currency).1
  | .removeOp indices => (remove_by_indices l indices).1
  | .loadOp file => (load_csv l file).1

/-- Modelled from the spec's words (§8, remove_by_indices): the records
whose 0-based position in the ledger's internal order is NOT listed, in
their original order; `k` is the position of the head of the list. -/
def keepExcept {α : Type} (k : ℕ) : List α → List ℕ → List α
  | [], _ => []
  | a :: t, s => if k ∈ s then keepExcept (k + 1) t s else a :: keepExcept (k + 1) t s

theorem keepExcept_of_lt {α : Type} :
    ∀ (xs : List α) (k : ℕ) (s : List ℕ), (∀ j ∈ s, j < k) → keepExcept k xs s = xs
  | [], _, _, _ => rfl
  | a :: t, k, s, h => by
      have hk : k ∉ s := fun hm => absurd (h k hm) (lt_irrefl k)
      have ht := keepExcept_of_lt t (k + 1) s (fun j hj => Nat.lt_succ_of_lt (h j hj))
      simp [keepExcept, hk, ht]

theorem keepExcept_congr {α : Type} :
    ∀ (xs : List α) (k : ℕ) (s t : List ℕ), (∀ j, j ∈ s ↔ j ∈ t) →
      keepExcept k xs s = keepExcept k xs t
  | [], _, _, _, _ => rfl
  | a :: u, k, s, t, h => by
      have ih := keepExcept_congr u (k + 1) s t h
      by_cases hk : k ∈ s
      · simp [keepExcept, hk, (h k).mp hk, ih]
      · have hkt : k ∉ t := fun hm => hk ((h k).mpr hm)
        simp [keepExcept, hk, hkt, ih]

theorem keepExcept_eraseIdx {α : Type} :
    ∀ (xs : List α) (k i : ℕ) (s : List ℕ), k ≤ i → (∀ j ∈ s, j < i) →
      keepExcept k (xs.eraseIdx (i - k)) s = keepExcept k xs (i :: s)
  | [], k, i, s, _, _ => by simp [List.eraseIdx, keepExcept]
  | a :: t, k, i, s, hki, hs => by
      rcases Nat.eq_or_lt_of_le hki with heq | hlt
      · subst heq
        have h0 : k - k = 0 := Nat.sub_self k
        have hnot : k ∉ s := fun hm => absurd (hs k hm) (lt_irrefl k)
        have hall : ∀ j ∈ s, j < k + 1 := fun j hj => Nat.lt_succ_of_lt (hs j hj)
        have hall2 : ∀ j ∈ (k :: s), j < k + 1 := by
          intro j hj
          rcases List.mem_cons.mp hj with h | h
          · exact h ▸ Nat.lt_succ_self k
          · exact Nat.lt_succ_of_lt (hs j h)
        simp [h0, List.eraseIdx, keepExcept, keepExcept_of_lt t k s hs,
          keepExcept_of_lt t (k + 1) (k :: s) hall2]
      · have hsub : i - k = (i - (k + 1)) + 1 := by omega
        have ih := keepExcept_eraseIdx t (k + 1) i s hlt hs
        have hkne : k ∉ (i :: s) ↔ k ∉ s := by
          constructor
          · intro h hm; exact h (List.mem_cons_of_mem _ hm)
          · intro h hm
            rcases List.mem_cons.mp hm with hh | hh
            · omega
            · exact h hh
        by_cases hk : k ∈ s
        · have : k ∈ (i :: s) := List.mem_cons_of_mem _ hk
          simp [hsub, List.eraseIdx, keepExcept, hk, this, ih]
        · have : k ∉ (i :: s) := hkne.mpr hk
          simp [hsub, List.eraseIdx, keepExcept, hk, this, ih]

theorem delSorted_eq_keepExcept {α : Type} :
    ∀ (idxs : List ℕ) (xs : List α), List.Pairwise (· > ·) idxs →
      (∀ i ∈ idxs, i < xs.length) →
      delSorted xs idxs = (keepExcept 0 xs idxs, none)
  | [], xs, _, _ => by simp [delSorted, keepExcept_of_lt xs 0 [] (by simp)]
  | i :: rest, xs, hp, hv => by
      have hi : i < xs.length := hv i (List.mem_cons_self i rest)
      have hgt : ∀ j ∈ rest, j < i := fun j hj => (List.pairwise_cons.mp hp).1 j hj
      have hlen : (xs.eraseIdx i).length = xs.length - 1 := by
        rw [List.length_eraseIdx]
        simp [hi]
      have hv2 : ∀ j ∈ rest, j < (xs.eraseIdx i).length := by
        intro j hj
        have := hgt j hj
        omega
      have ih := delSorted_eq_keepExcept rest (xs.eraseIdx i)
        (List.pairwise_cons.mp hp).2 hv2
      have hkeep := keepExcept_eraseIdx xs 0 i rest (Nat.zero_le i) hgt
      rw [Nat.sub_zero] at hkeep
      simp [delSorted, hi, ih, hkeep]

theorem mem_sortDesc (idxs : List ℕ) (j : ℕ) : j ∈ sortDesc idxs ↔ j ∈ idxs :=
  (List.perm_insertionSort (· ≥ ·) idxs).mem_iff

theorem sortDesc_sorted (idxs : List ℕ) : List.Sorted (· ≥ ·) (sortDesc idxs) :=
  List.sorted_insertionSort (· ≥ ·) idxs

theorem sortDesc_nodup (idxs : List ℕ) (h : idxs.Nodup) : (sortDesc idxs).Nodup :=
  ((List.perm_insertionSort (· ≥ ·) idxs).nodup_iff).mpr h

theorem pairwise_gt_of_ge_nodup :
    ∀ (l : List ℕ), List.Pairwise (· ≥ ·) l → l.Nodup → List.Pairwise (· > ·) l
  | [], _, _ => List.Pairwise.nil
  | a :: t, hge, hnd => by
      rw [List.pairwise_cons] at hge ⊢
      rw [List.nodup_cons] at hnd
      refine ⟨fun j hj => ?_, pairwise_gt_of_ge_nodup t hge.2 hnd.2⟩
      have h1 := hge.1 j hj
      have h2 : a ≠ j := fun he => hnd.1 (he ▸ hj)
      omega

theorem sortDesc_pairwise_gt (idxs : List ℕ) (h : idxs.Nodup) :
    List.Pairwise (· > ·) (sortDesc idxs) :=
  pairwise_gt_of_ge_nodup _ (sortDesc_sorted idxs) (sortDesc_nodup idxs h)

/-- The record-level invariant of spec §3: the stored converted amount is
the 2-digit rounding of `base_amount * exchange_rate`. -/
def AmountInv (l : Ledger) : Prop :=
  ∀ r ∈ l.rows, r.amount = round2 (r.base_amount * r.exchange_rate)

theorem parseCsvRow_serializeRow (r : Row) : parseCsvRow (serializeRow r) = some r := rfl

theorem loadLoop_save :
    ∀ (rows acc : List Row), loadLoop acc (rows.map serializeRow) = (acc ++ rows, none)
  | [], acc => by simp [loadLoop]
  | r :: t, acc => by
      have ih := loadLoop_save t (acc ++ [r])
      simp [loadLoop, parseCsvRow_serializeRow, ih]

/-- An oracle for sessions in which the rate service is unreachable: every
lookup yields `None`. -/
def oNone : RateOracle := ⟨fun _ _ _ => none, fun _ _ => none⟩

/-- A concrete record used by witnesses and counterexamples. -/
def sampleRow : Row :=
  { date := "2024-01-15", base_amount := 100, base_currency := "USD",
    amount := 700, target_currency := "CNY", category := "Food", note := "",
    exchange_rate := 7 }

/-- A concrete unlocked ledger holding one record. -/
def sampleLedger : Ledger :=
  { rows := [sampleRow], month_budget := 0, base_currency := "SGD",
    target_currency := "CNY", exchange_rate := some 5,
    target_currency_locked := false }

/-- A concrete three-record ledger (for deletion witnesses). -/
def ledger3 : Ledger :=
  { sampleLedger with rows :=
      [sampleRow, { sampleRow with note := "b", base_amount := 20 },
       { sampleRow with note := "c", base_amount := 30 }] }

/- ------------------------------------------------------------------ C8 -/

/-- C8: `set_target_currency` succeeds exactly once per session (absent
CSV import) in both implementations: an unlocked call returns `true` and
locks the ledger; a locked call returns `false`, performs no mutation, and
leaves the target currency and every record unchanged (the whole state is
returned untouched). -/
theorem set_target_currency_once :
    ∀ (l : Ledger) (o : RateOracle) (c : String),
      (l.target_currency_locked = false →
        (Xxx.set_target_currency l o c).2 = true ∧
        (Xxx.set_target_currency l o c).1.target_currency_locked = true ∧
        (Utils.set_target_currency l o c).2 = true ∧
        (Utils.set_target_currency l o c).1.target_currency_locked = true) ∧
      (l.target_currency_locked = true →
        Xxx.set_target_currency l o c = (l, false) ∧
        Utils.set_target_currency l o c = (l, false)) := by
  intro l o c
  constructor
  · intro h
    simp [Xxx.set_target_currency, Utils.set_target_currency, h]
  · intro h
    simp [Xxx.set_target_currency, Utils.set_target_currency, h]

theorem set_target_currency_once_witness :
    sampleLedger.target_currency_locked = false ∧
    (Xxx.set_target_currency sampleLedger oNone "USD").2 = true ∧
    ((Xxx.set_target_currency sampleLedger oNone "USD").1.target_currency_locked = true ∧
     Xxx.set_target_currency (Xxx.set_target_currency sampleLedger oNone "USD").1 oNone "EUR"
       = ((Xxx.set_target_currency sampleLedger oNone "USD").1, false)) :=
  ⟨rfl,
   ((set_target_currency_once sampleLedger oNone "USD").1 rfl).1,
   ((set_target_currency_once sampleLedger oNone "USD").1 rfl).2.1,
   ((set_target_currency_once (Xxx.set_target_currency sampleLedger oNone "USD").1 oNone
      "EUR").2 (by decide)).1⟩

/- ------------------------------------------------------------------ C9 -/

/-- C9 (amended): `historical_rate(c, c, d)` returns `1.0` unconditionally,
independently of the service response, in both implementations, and the
`utils.py` `latest_rate(c, c)` returns `1.0` immediately; but the
`xxxxxxxxx.py` `latest_rate` has no same-currency shortcut (see the
counterexample). -/
theorem same_currency_rate_one :
    ∀ (c d : String) (f : FetchResult),
      Xxx.get_historical_exchange_rate c c d f = .ok (some 1) ∧
      Utils.get_historical_exchange_rate c c d f = .ok (some 1) ∧
      Utils.get_exchange_rate c c f = .ok (some 1) := by
  intro c d f
  refine ⟨?_, ?_, ?_⟩ <;>
    simp [Xxx.get_historical_exchange_rate, Utils.get_historical_exchange_rate,
      Utils.get_exchange_rate]

/-- C9 counterexample: the `xxxxxxxxx.py` `get_exchange_rate` queries the
latest endpoint even when base = target; with the service unreachable it
returns `None`, not `1.0`. -/
theorem latest_rate_same_currency_counterexample :
    Xxx.get_exchange_rate "USD" "USD" FetchResult.netErr = Except.ok none ∧
    Xxx.get_exchange_rate "USD" "USD" FetchResult.netErr ≠ Except.ok (some 1) := by
  refine ⟨rfl, ?_⟩
  intro h
  simp [Xxx.get_exchange_rate] at h

/- ----------------------------------------------------------------- C10 -/

theorem remove_keepExcept (l : Ledger) (idxs : List ℕ) (hnd : idxs.Nodup)
    (hv : ∀ j ∈ idxs, j < l.rows.length) :
    remove_by_indices l idxs = ({ l with rows := keepExcept 0 l.rows idxs }, none) := by
  have hp := sortDesc_pairwise_gt idxs hnd
  have hv2 : ∀ j ∈ sortDesc idxs, j < l.rows.length := by
    intro j hj
    exact hv j ((mem_sortDesc idxs j).mp hj)
  have hm := delSorted_eq_keepExcept (sortDesc idxs) l.rows hp hv2
  have hc := keepExcept_congr l.rows 0 (sortDesc idxs) idxs (mem_sortDesc idxs)
  simp [remove_by_indices, hm, hc]

/-- C10: `remove_by_indices [i]` at a valid 0-based position deletes exactly
the record at position `i` of the internal order (count drops by one), and
for any duplicate-free collection of valid positions the result keeps
exactly the records at unlisted positions — hence it does not depend on
the order in which the indices are given, deletion proceeding in
descending index order. -/
theorem remove_by_indices_spec :
    (∀ (l : Ledger) (i : ℕ), i < l.rows.length →
       remove_by_indices l [i] = ({ l with rows := l.rows.eraseIdx i }, none) ∧
       (remove_by_indices l [i]).1.rows.length + 1 = l.rows.length) ∧
    (∀ (l : Ledger) (idxs : List ℕ), idxs.Nodup → (∀ j ∈ idxs, j < l.rows.length) →
       remove_by_indices l idxs = ({ l with rows := keepExcept 0 l.rows idxs }, none)) ∧
    (∀ (l : Ledger) (idxs idxs2 : List ℕ), idxs.Perm idxs2 → idxs.Nodup →
       (∀ j ∈ idxs, j < l.rows.length) →
       remove_by_indices l idxs = remove_by_indices l idxs2) := by
  refine ⟨?_, remove_keepExcept, ?_⟩
  · intro l i hi
    have hsingle : sortDesc [i] = [i] := rfl
    have hlen : (l.rows.eraseIdx i).length = l.rows.length - 1 := by
      rw [List.length_eraseIdx]
      simp [hi]
    constructor
    · simp [remove_by_indices, hsingle, delSorted, hi]
    · simp [remove_by_indices, hsingle, delSorted, hi, hlen]
      omega
  · intro l idxs idxs2 hperm hnd hv
    have hnd2 : idxs2.Nodup := hperm.nodup hnd
    have hv2 : ∀ j ∈ idxs2, j < l.rows.length := by
      intro j hj
      exact hv j (hperm.mem_iff.mpr hj)
    rw [remove_keepExcept l idxs hnd hv, remove_keepExcept l idxs2 hnd2 hv2,
      keepExcept_congr l.rows 0 idxs idxs2 (fun j => hperm.mem_iff)]

theorem remove_by_indices_spec_witness :
    remove_by_indices ledger3 [1] = ({ ledger3 with rows := ledger3.rows.eraseIdx 1 }, none) ∧
    remove_by_indices ledger3 [2, 0]
      = ({ ledger3 with rows := keepExcept 0 ledger3.rows [2, 0] }, none) ∧
    remove_by_indices ledger3 [2, 0] = remove_by_indices ledger3 [0, 2] :=
  ⟨(remove_by_indices_spec.1 ledger3 1 (by decide)).1,
   remove_by_indices_spec.2.1 ledger3 [2, 0] (by decide) (by decide),
   remove_by_indices_spec.2.2 ledger3 [2, 0] [0, 2] (by decide) (by decide) (by decide)⟩

/- ------------------------------------------------------------------ C6 -/

/-- C6 (amended): the four lookup functions return `None` — never an
exception — on network failure or timeout, on date-parse failure, on a
non-2xx HTTP status (the `utils.py` pair, which calls `raise_for_status`),
and on a response whose `rates` mapping lacks the target currency; more
generally no exception escapes unless the decoded response body has no
`rates` mapping at all, in which case `data['rates']` raises an uncaught
`KeyError` (see the counterexample). -/
theorem rate_lookups_absorb_failures :
    (∀ (b t d : String) (f : FetchResult), (∀ s, f ≠ .ok s none) →
      ∃ v, Xxx.get_historical_exchange_rate b t d f = .ok v) ∧
    (∀ (b t : String) (f : FetchResult), (∀ s, f ≠ .ok s none) →
      ∃ v, Xxx.get_exchange_rate b t f = .ok v) ∧
    (∀ (b t d : String) (f : FetchResult), (∀ s, f ≠ .ok s none) →
      ∃ v, Utils.get_historical_exchange_rate b t d f = .ok v) ∧
    (∀ (b t : String) (f : FetchResult), (∀ s, f ≠ .ok s none) →
      ∃ v, Utils.get_exchange_rate b t f = .ok v) ∧
    (∀ (b t d : String), b ≠ t →
      Xxx.get_historical_exchange_rate b t d .netErr = .ok none) ∧
    (∀ (b t d : String) (f : FetchResult), b ≠ t → parseAnyDate d = false →
      Xxx.get_historical_exchange_rate b t d f = .ok none) ∧
    (∀ (b t d : String) (s : Bool) (rs : List (String × ℚ)), b ≠ t →
      findRate rs t = none →
      Xxx.get_historical_exchange_rate b t d (.ok s (some rs)) = .ok none) ∧
    (∀ (b t : String), Xxx.get_exchange_rate b t .netErr = .ok none) ∧
    (∀ (b t : String) (s : Bool) (rs : List (String × ℚ)), findRate rs t = none →
      Xxx.get_exchange_rate b t (.ok s (some rs)) = .ok none) ∧
    (∀ (b t d : String), b ≠ t →
      Utils.get_historical_exchange_rate b t d .netErr = .ok none) ∧
    (∀ (b t d : String) (f : FetchResult), b ≠ t → parseYmd d = false →
      Utils.get_historical_exchange_rate b t d f = .ok none) ∧
    (∀ (b t d : String) (x : Option (List (String × ℚ))), b ≠ t →
      Utils.get_historical_exchange_rate b t d (.ok false x) = .ok none) ∧
    (∀ (b t d : String) (rs : List (String × ℚ)), b ≠ t → findRate rs t = none →
      Utils.get_historical_exchange_rate b t d (.ok true (some rs)) = .ok none) ∧
    (∀ (b t : String), b ≠ t → Utils.get_exchange_rate b t .netErr = .ok none) ∧
    (∀ (b t : String) (x : Option (List (String × ℚ))), b ≠ t →
      Utils.get_exchange_rate b t (.ok false x) = .ok none) ∧
    (∀ (b t : String) (rs : List (String × ℚ)), b ≠ t → findRate rs t = none →
      Utils.get_exchange_rate b t (.ok true (some rs)) = .ok none) := by
  refine ⟨?_, ?_, ?_, ?_, ?_, ?_, ?_, ?_, ?_, ?_, ?_, ?_, ?_, ?_, ?_, ?_⟩
  · intro b t d f hf
    by_cases hbt : b = t
    · exact ⟨some 1, by simp [Xxx.get_historical_exchange_rate, hbt]⟩
    · by_cases hd : parseAnyDate d = false
      · exact ⟨none, by simp [Xxx.get_historical_exchange_rate, hbt, hd]⟩
      · cases f with
        | netErr => exact ⟨none, by simp [Xxx.get_historical_exchange_rate, hbt, hd]⟩
        | ok s rates =>
            cases rates with
            | none => exact absurd rfl (hf s)
            | some rs =>
                exact ⟨findRate rs t, by simp [Xxx.get_historical_exchange_rate, hbt, hd]⟩
  · intro b t f hf
    cases f with
    | netErr => exact ⟨none, rfl⟩
    | ok s rates =>
        cases rates with
        | none => exact absurd rfl (hf s)
        | some rs => exact ⟨findRate rs t, rfl⟩
  · intro b t d f hf
    by_cases hbt : b = t
    · exact ⟨some 1, by simp [Utils.get_historical_exchange_rate, hbt]⟩
    · by_cases hd : parseYmd d = false
      · exact ⟨none, by simp [Utils.get_historical_exchange_rate, hbt, hd]⟩
      · cases f with
        | netErr => exact ⟨none, by simp [Utils.get_historical_exchange_rate, hbt, hd]⟩
        | ok s rates =>
            cases rates with
            | none => exact absurd rfl (hf s)
            | some rs =>
                cases s with
                | false => exact ⟨none, by simp [Utils.get_historical_exchange_rate, hbt, hd]⟩
                | true =>
                    exact ⟨findRate rs t,
                      by simp [Utils.get_historical_exchange_rate, hbt, hd]⟩
  · intro b t f hf
    by_cases hbt : b = t
    · exact ⟨some 1, by simp [Utils.get_exchange_rate, hbt]⟩
    · cases f with
      | netErr => exact ⟨none, by simp [Utils.get_exchange_rate, hbt]⟩
      | ok s rates =>
          cases rates with
          | none => exact absurd rfl (hf s)
          | some rs =>
              cases s with
              | false => exact ⟨none, by simp [Utils.get_exchange_rate, hbt]⟩
              | true => exact ⟨findRate rs t, by simp [Utils.get_exchange_rate, hbt]⟩
  · intro b t d h
    simp [Xxx.get_historical_exchange_rate, h]
  · intro b t d f h hd
    simp [Xxx.get_historical_exchange_rate, h, hd]
  · intro b t d s rs h hfind
    by_cases hd : parseAnyDate d = false <;>
      simp [Xxx.get_historical_exchange_rate, h, hd, hfind]
  · intro b t
    rfl
  · intro b t s rs hfind
    simp [Xxx.get_exchange_rate, hfind]
  · intro b t d h
    by_cases hd : parseYmd d = false <;>
      simp [Utils.get_historical_exchange_rate, h, hd]
  · intro b t d f h hd
    simp [Utils.get_historical_exchange_rate, h, hd]
  · intro b t d x h
    by_cases hd : parseYmd d = false <;>
      simp [Utils.get_historical_exchange_rate, h, hd]
  · intro b t d rs h hfind
    by_cases hd : parseYmd d = false <;>
      simp [Utils.get_historical_exchange_rate, h, hd, hfind]
  · intro b t h
    simp [Utils.get_exchange_rate, h]
  · intro b t x h
    simp [Utils.get_exchange_rate, h]
  · intro b t rs h hfind
    simp [Utils.get_exchange_rate, h, hfind]

theorem rate_lookups_absorb_failures_witness :
    (∃ v, Xxx.get_historical_exchange_rate "SGD" "CNY" "2024-01-15"
        FetchResult.netErr = .ok v) ∧
    Xxx.get_historical_exchange_rate "SGD" "CNY" "2024-01-15" FetchResult.netErr
      = .ok none :=
  ⟨rate_lookups_absorb_failures.1 "SGD" "CNY" "2024-01-15" FetchResult.netErr
      (fun s h => FetchResult.noConfusion h),
   rate_lookups_absorb_failures.2.2.2.2.1 "SGD" "CNY" "2024-01-15" (by decide)⟩

/-- C6 counterexample: a decoded service response without a `rates` mapping
(the rate service really answers `404` with a JSON error body for unknown
parameters) makes both historical lookups raise an uncaught `KeyError`
instead of returning `None`. -/
theorem rate_lookup_keyerror_counterexample :
    Xxx.get_historical_exchange_rate "SGD" "CNY" "2024-01-15"
        (FetchResult.ok true none) = Except.error "KeyError" ∧
    Utils.get_historical_exchange_rate "SGD" "CNY" "2024-01-15"
        (FetchResult.ok true none) = Except.error "KeyError" := by
  constructor
  · have hd : parseAnyDate "2024-01-15" = true := by decide
    have hbt : "SGD" ≠ "CNY" := by decide
    simp [Xxx.get_historical_exchange_rate, hbt, hd]
  · have hd : parseYmd "2024-01-15" = true := by decide
    have hbt : "SGD" ≠ "CNY" := by decide
    simp [Utils.get_historical_exchange_rate, hbt, hd]

/- ------------------------------------------------------------------ C5 -/

/-- C5 (amended): in the `xxxxxxxxx.py` `add`, when both the historical and
the latest lookup fail, the fallback rate is the ledger's cached default
rate when the record's base currency equals the ledger's base currency —
provided that cached default exists; when it is `None` (startup fetch
failed) `add` raises a `TypeError` instead (see the counterexample) — and
`1.0` otherwise, positive whenever the cached default is. The `utils.py`
`add` instead always falls back to `1.0` on double failure. -/
theorem add_double_failure_fallback :
    ∀ (l : Ledger) (o : RateOracle) (today : String) (a : ℚ) (cat note : String)
      (d bc : Option String),
      o.hist (pyOrS bc l.base_currency) l.target_currency (pyOrS d today) = none →
      o.latest (pyOrS bc l.base_currency) l.target_currency = none →
      ((∀ r0 : ℚ, l.exchange_rate = some r0 → pyOrS bc l.base_currency = l.base_currency →
          (Xxx.add l o today a cat note d bc).2 = none ∧
          ∃ rec, (Xxx.add l o today a cat note d bc).1.rows = l.rows ++ [rec] ∧
            rec.exchange_rate = r0 ∧ (0 < r0 → 0 < rec.exchange_rate)) ∧
       (pyOrS bc l.base_currency ≠ l.base_currency →
          (Xxx.add l o today a cat note d bc).2 = none ∧
          ∃ rec, (Xxx.add l o today a cat note d bc).1.rows = l.rows ++ [rec] ∧
            rec.exchange_rate = 1 ∧ (0 : ℚ) < rec.exchange_rate) ∧
       (∃ rec, (Utils.add l o today a cat note d bc).rows = l.rows ++ [rec] ∧
          rec.exchange_rate = 1 ∧ (0 : ℚ) < rec.exchange_rate)) := by
  intro l o today a cat note d bc h1 h2
  have hres : Xxx.resolveRate l o (pyOrS bc l.base_currency) (pyOrS d today) = none := by
    simp [Xxx.resolveRate, h1, h2]
  refine ⟨?_, ?_, ?_⟩
  · intro r0 hr0 heq
    have hres2 : Xxx.resolveRate l o l.base_currency (pyOrS d today) = none := by
      rw [← heq]
      exact hres
    refine ⟨by simp [Xxx.add, hres, hres2, heq, hr0], ?_⟩
    refine ⟨{ date := pyOrS d today, base_amount := round2 a,
              base_currency := l.base_currency, amount := round2 (a * r0),
              target_currency := l.target_currency, category := cat,
              note := pyStrip note, exchange_rate := r0 }, ?_, rfl, fun h => h⟩
    simp [Xxx.add, hres, hres2, heq, hr0, addRecord]
  · intro hne
    refine ⟨by simp [Xxx.add, hres, hne], ?_⟩
    refine ⟨{ date := pyOrS d today, base_amount := round2 a,
              base_currency := pyOrS bc l.base_currency, amount := round2 (a * 1),
              target_currency := l.target_currency, category := cat,
              note := pyStrip note, exchange_rate := 1 }, ?_, rfl, one_pos⟩
    simp [Xxx.add, hres, hne, addRecord]
  · refine ⟨{ date := pyOrS d today, base_amount := round2 a,
              base_currency := pyOrS bc l.base_currency, amount := round2 (a * 1),
              target_currency := l.target_currency, category := cat,
              note := pyStrip note, exchange_rate := 1 }, ?_, rfl, one_pos⟩
    simp [Utils.add, h1, h2, truthyOr, addRecord]

theorem add_double_failure_fallback_witness :
    (Xxx.add sampleLedger oNone "2025-01-01" 50 "Food" "" none none).2 = none ∧
    (∃ rec, (Xxx.add sampleLedger oNone "2025-01-01" 50 "Food" "" none none).1.rows
        = sampleLedger.rows ++ [rec] ∧ rec.exchange_rate = 5 ∧
        (0 < (5 : ℚ) → 0 < rec.exchange_rate)) :=
  (add_double_failure_fallback sampleLedger oNone "2025-01-01" 50 "Food" "" none none
    rfl rfl).1 5 rfl rfl

/-- C5 counterexample: when the startup fetch failed, the cached default
rate is `None`; a subsequent `add` whose two lookups also fail reaches
`round(float(amount) * None, 2)` and raises a `TypeError` — the three-tier
fallback does raise and yields no rate at all. -/
theorem add_missing_default_counterexample :
    Xxx.add (Xxx.init none) oNone "2025-01-01" 100 "Food" "" (some "2024-01-15") none
      = (Xxx.init none, some "TypeError") := by
  decide

/- ------------------------------------------------------------------ C2 -/

/-- C2 (amended): in the `utils.py` implementation, `set_target_currency c`
on an unlocked ledger sets the target to `c`, locks it, returns `true`,
and recomputes every existing record against `c` with the
historical-latest-`1.0` fallback — substituting `1.0` rather than skipping
the record when both lookups fail — so every record ends with
`target_currency = c` and a freshly rounded amount. The `xxxxxxxxx.py`
implementation instead consults only the historical rate and leaves a
record entirely unchanged when that lookup yields no usable rate (see the
counterexample). -/
theorem set_target_currency_recomputes_all_utils :
    ∀ (l : Ledger) (o : RateOracle) (c : String), l.target_currency_locked = false →
      (Utils.set_target_currency l o c).2 = true ∧
      (Utils.set_target_currency l o c).1.target_currency = c ∧
      (Utils.set_target_currency l o c).1.target_currency_locked = true ∧
      (Utils.set_target_currency l o c).1.rows.length = l.rows.length ∧
      (∀ r ∈ (Utils.set_target_currency l o c).1.rows,
         r.target_currency = c ∧ r.amount = round2 (r.base_amount * r.exchange_rate)) ∧
      (∀ r ∈ l.rows, o.hist r.base_currency c r.date = none →
         o.latest r.base_currency c = none →
         { r with exchange_rate := 1, amount := round2 (r.base_amount * 1),
                  target_currency := c }
           ∈ (Utils.set_target_currency l o c).1.rows) := by
  intro l o c h
  refine ⟨by simp [Utils.set_target_currency, h], by simp [Utils.set_target_currency, h],
    by simp [Utils.set_target_currency, h], by simp [Utils.set_target_currency, h],
    ?_, ?_⟩
  · intro r hr
    simp only [Utils.set_target_currency, h, Bool.false_eq_true, if_false,
      List.mem_map] at hr
    obtain ⟨a, _, rfl⟩ := hr
    exact ⟨rfl, rfl⟩
  · intro r hr h1 h2
    simp only [Utils.set_target_currency, h, Bool.false_eq_true, if_false,
      List.mem_map]
    refine ⟨r, hr, ?_⟩
    simp [h1, h2, truthyOr]

theorem set_target_currency_recomputes_all_utils_witness :
    (Utils.set_target_currency sampleLedger oNone "EUR").2 = true ∧
    (Utils.set_target_currency sampleLedger oNone "EUR").1.target_currency = "EUR" ∧
    { sampleRow with
        exchange_rate := 1,
        amount := round2 (sampleRow.base_amount * 1),
        target_currency := "EUR" }
      ∈ (Utils.set_target_currency sampleLedger oNone "EUR").1.rows :=
  ⟨(set_target_currency_recomputes_all_utils sampleLedger oNone "EUR" rfl).1,
   (set_target_currency_recomputes_all_utils sampleLedger oNone "EUR" rfl).2.1,
   (set_target_currency_recomputes_all_utils sampleLedger oNone "EUR" rfl).2.2.2.2.2
     sampleRow (by decide) rfl rfl⟩

/-- C2 counterexample: the `xxxxxxxxx.py` `set_target_currency` on an
unlocked one-record ledger whose historical lookup fails returns `true`
and retargets the ledger, but skips the record: no `1.0` fallback is
substituted and the record keeps its old `target_currency`. -/
theorem set_target_currency_xxx_skips_counterexample :
    (Xxx.set_target_currency sampleLedger oNone "EUR").2 = true ∧
    (Xxx.set_target_currency sampleLedger oNone "EUR").1.target_currency = "EUR" ∧
    ¬ (∀ r ∈ (Xxx.set_target_currency sampleLedger oNone "EUR").1.rows,
        r.target_currency = "EUR") := by
  refine ⟨rfl, rfl, ?_⟩
  intro hall
  have := hall sampleRow (by decide)
  simp [sampleRow] at this

/- ------------------------------------------------------------------ C1 -/

theorem amountInv_addRecord (l : Ledger) (ds : String) (a : ℚ) (b cat note : String)
    (er : ℚ) (h : AmountInv l) (ha : round2 a = a) :
    AmountInv (addRecord l ds a b cat note er) := by
  intro r hr
  simp only [addRecord, List.mem_append, List.mem_singleton] at hr
  rcases hr with hr | rfl
  · exact h r hr
  · simp [ha]

/-- C1 (amended): `amount = round(base_amount * exchange_rate, 2)` holds
for every record after any `set_target_currency` (in both implementations,
whether a record is recomputed or left alone) and after any `add` whose
`amount` argument is already equal to its own 2-digit rounding; `add`
computes the stored converted amount from the unrounded input, so the
equation can fail when the input has more fractional digits (see the
counterexample). -/
theorem amount_invariant_rounded_inputs :
    (∀ (l : Ledger) (o : RateOracle) (today : String) (a : ℚ) (cat note : String)
        (d bc : Option String), AmountInv l → round2 a = a →
        AmountInv (Xxx.add l o today a cat note d bc).1 ∧
        AmountInv (Utils.add l o today a cat note d bc)) ∧
    (∀ (l : Ledger) (o : RateOracle) (c : String), AmountInv l →
        AmountInv (Xxx.set_target_currency l o c).1 ∧
        AmountInv (Utils.set_target_currency l o c).1) := by
  constructor
  · intro l o today a cat note d bc h ha
    constructor
    · unfold Xxx.add
      cases hres : Xxx.resolveRate l o (pyOrS bc l.base_currency) (pyOrS d today) with
      | some er =>
          simpa [hres] using amountInv_addRecord l _ a _ cat note er h ha
      | none =>
          by_cases hb : pyOrS bc l.base_currency = l.base_currency
          · rw [hb] at hres
            cases her : l.exchange_rate with
            | some er =>
                simpa [hres, hb, her] using
                  amountInv_addRecord l (pyOrS d today) a l.base_currency cat note er h ha
            | none => simpa [hres, hb, her] using h
          · simpa [hres, hb] using
              amountInv_addRecord l (pyOrS d today) a (pyOrS bc l.base_currency)
                cat note 1 h ha
    · exact amountInv_addRecord l _ a _ cat note _ h ha
  · intro l o c h
    constructor
    · unfold Xxx.set_target_currency
      by_cases hl : l.target_currency_locked
      · simpa [hl] using h
      · simp only [hl, Bool.false_eq_true, if_false]
        intro r hr
        simp only [List.mem_map] at hr
        obtain ⟨x, hx, rfl⟩ := hr
        cases hh : o.hist x.base_currency c x.date with
        | some er =>
            by_cases he : er = 0
            · simpa [hh, he] using h x hx
            · simp [hh, he]
        | none => simpa [hh] using h x hx
    · unfold Utils.set_target_currency
      by_cases hl : l.target_currency_locked
      · simpa [hl] using h
      · simp only [hl, Bool.false_eq_true, if_false]
        intro r hr
        simp only [List.mem_map] at hr
        obtain ⟨x, hx, rfl⟩ := hr
        simp

theorem amount_invariant_rounded_inputs_witness :
    AmountInv sampleLedger ∧ round2 50 = (50 : ℚ) ∧
    AmountInv (Xxx.add sampleLedger oNone "2025-01-01" 50 "Food" "" none none).1 ∧
    AmountInv (Xxx.set_target_currency sampleLedger oNone "EUR").1 :=
  ⟨by unfold AmountInv; decide, by decide,
   (amount_invariant_rounded_inputs.1 sampleLedger oNone "2025-01-01" 50 "Food" ""
      none none (by unfold AmountInv; decide) (by decide)).1,
   (amount_invariant_rounded_inputs.2 sampleLedger oNone "EUR"
      (by unfold AmountInv; decide)).1⟩

/-- An oracle whose historical lookup always answers a rate of `2`. -/
def oTwo : RateOracle := ⟨fun _ _ _ => some 2, fun _ _ => none⟩

/-- C1 counterexample: `add` with the amount `1.005` (= 201/200) and rate
`2` stores `base_amount = round(1.005, 2) = 1.0` and
`amount = round(1.005 * 2, 2) = 2.01`, but
`round(base_amount * exchange_rate, 2) = 2.0 ≠ 2.01` — the invariant fails
right after this `add`. -/
theorem amount_invariant_counterexample :
    ¬ AmountInv (Xxx.add (Xxx.init (some 5)) oTwo "2025-01-15" (201/200)
        "Food" "" none none).1 := by
  unfold AmountInv
  decide

/- ------------------------------------------------------------------ C4 -/

theorem xxxAdd_locked (l : Ledger) (o : RateOracle) (today : String) (a : ℚ)
    (cat note : String) (d bc : Option String) :
    (Xxx.add l o today a cat note d bc).1.target_currency_locked
      = l.target_currency_locked := by
  unfold Xxx.add
  cases hres : Xxx.resolveRate l o (pyOrS bc l.base_currency) (pyOrS d today) with
  | some er => simp [hres, addRecord]
  | none =>
      by_cases hb : pyOrS bc l.base_currency = l.base_currency
      · rw [hb] at hres
        cases her : l.exchange_rate <;> simp [hres, hb, her, addRecord]
      · simp [hres, hb, addRecord]

theorem utilsAdd_locked (l : Ledger) (o : RateOracle) (today : String) (a : ℚ)
    (cat note : String) (d bc : Option String) :
    (Utils.add l o today a cat note d bc).target_currency_locked
      = l.target_currency_locked := rfl

theorem load_csv_locked_mono (l : Ledger) (file : List CsvRow)
    (h : l.target_currency_locked = true) :
    (load_csv l file).1.target_currency_locked = true := by
  unfold load_csv
  rcases hl : loadLoop [] file with ⟨rows, err⟩
  cases err with
  | some e => simpa using h
  | none =>
      cases rows with
      | nil => simpa using h
      | cons first rest => by_cases hf : first.target_currency = "" <;> simp [hf]

theorem load_csv_locks_of_loaded (l : Ledger) (file : List CsvRow)
    (h2 : (load_csv l file).2 = none) (hne : (load_csv l file).1.rows ≠ []) :
    (load_csv l file).1.target_currency_locked = true := by
  unfold load_csv at h2 hne ⊢
  rcases hl : loadLoop [] file with ⟨rows, err⟩
  rw [hl] at h2 hne
  cases err with
  | some e => simp at h2
  | none =>
      cases rows with
      | nil => simp at hne
      | cons first rest => by_cases hf : first.target_currency = "" <;> simp [hf]

theorem xxxStep_locked_mono (o : RateOracle) (l : Ledger) (op : Op)
    (h : l.target_currency_locked = true) :
    (Xxx.step o l op).target_currency_locked = true := by
  cases op with
  | addOp today amount cat note d bc =>
      rw [Xxx.step, xxxAdd_locked]
      exact h
  | setTargetOp c => simp [Xxx.step, Xxx.set_target_currency, h]
  | removeOp idxs => simpa [Xxx.step, remove_by_indices] using h
  | loadOp file => exact load_csv_locked_mono l file h

theorem utilsStep_locked_mono (o : RateOracle) (l : Ledger) (op : Op)
    (h : l.target_currency_locked = true) :
    (Utils.step o l op).target_currency_locked = true := by
  cases op with
  | addOp today amount cat note d bc =>
      rw [Utils.step, utilsAdd_locked]
      exact h
  | setTargetOp c => simp [Utils.step, Utils.set_target_currency, h]
  | removeOp idxs => simpa [Utils.step, remove_by_indices] using h
  | loadOp file => exact load_csv_locked_mono l file h

/-- C4 (amended): no operation of either implementation ever clears
`target_currency_locked` — along any session trace the lock is monotone,
so LOCKED never transitions back to UNLOCKED — and a `load_csv` that
completes without error having loaded at least one record ends LOCKED.
A `load_csv` of zero data rows, however, leaves the flag unchanged
instead of always ending LOCKED (see the counterexample). -/
theorem lock_never_unlocks :
    (∀ (o : RateOracle) (l : Ledger) (op : Op), l.target_currency_locked = true →
       (Xxx.step o l op).target_currency_locked = true) ∧
    (∀ (o : RateOracle) (l : Ledger) (op : Op), l.target_currency_locked = true →
       (Utils.step o l op).target_currency_locked = true) ∧
    (∀ (o : RateOracle) (ops : List Op) (l : Ledger), l.target_currency_locked = true →
       (ops.foldl (Xxx.step o) l).target_currency_locked = true) ∧
    (∀ (o : RateOracle) (ops : List Op) (l : Ledger), l.target_currency_locked = true →
       (ops.foldl (Utils.step o) l).target_currency_locked = true) ∧
    (∀ (l : Ledger) (file : List CsvRow), (load_csv l file).2 = none →
       (load_csv l file).1.rows ≠ [] →
       (load_csv l file).1.target_currency_locked = true) := by
  refine ⟨xxxStep_locked_mono, utilsStep_locked_mono, ?_, ?_, load_csv_locks_of_loaded⟩
  · intro o ops
    induction ops with
    | nil => intro l h; simpa using h
    | cons op rest ih =>
        intro l h
        exact ih _ (xxxStep_locked_mono o l op h)
  · intro o ops
    induction ops with
    | nil => intro l h; simpa using h
    | cons op rest ih =>
        intro l h
        exact ih _ (utilsStep_locked_mono o l op h)

/-- A locked variant of the sample ledger. -/
def lockedSample : Ledger := { sampleLedger with target_currency_locked := true }

theorem lock_never_unlocks_witness :
    (([Op.setTargetOp "USD", Op.removeOp [0]] : List Op).foldl (Xxx.step oNone)
        lockedSample).target_currency_locked = true ∧
    (load_csv sampleLedger [serializeRow sampleRow]).2 = none ∧
    (load_csv sampleLedger [serializeRow sampleRow]).1.target_currency_locked = true :=
  ⟨lock_never_unlocks.2.2.1 oNone [Op.setTargetOp "USD", Op.removeOp [0]]
      lockedSample rfl,
   by decide,
   lock_never_unlocks.2.2.2.2 sampleLedger [serializeRow sampleRow]
      (by decide) (by decide)⟩

/-- C4 counterexample: a `load_csv` of a CSV with zero data rows on an
unlocked ledger completes without error but ends UNLOCKED — `load_csv`
does not always end in the LOCKED state. -/
theorem load_csv_empty_counterexample :
    (load_csv (Xxx.init none) ([] : List CsvRow)).2 = none ∧
    (load_csv (Xxx.init none) ([] : List CsvRow)).1.target_currency_locked = false := by
  decide

/- ------------------------------------------------------------------ C3 -/

/-- A CSV data row whose `base_amount` cell is not numeric. -/
def badCsvRow : CsvRow :=
  { date := "2024-01-15", base_amount := Cell.str "abc", base_currency := "USD",
    amount := Cell.num 700, target_currency := "CNY", category := "Food",
    exchange_rate := some (Cell.num 7), note := "" }

/-- C3 (code bug): `load_csv` clears the record list *before* parsing, so a
malformed numeric field aborts the load with the prior records already
destroyed — the load is not all-or-nothing, while the spec (its §7 even
names this implementation shape a violation) requires the prior state to
remain intact. Evaluated at a one-record ledger and a one-row CSV whose
`base_amount` is `"abc"`: the parse error propagates and the ledger is
left empty. -/
theorem load_csv_not_atomic_bug :
    (load_csv sampleLedger [badCsvRow]).2 = some "ValueError" ∧
    (load_csv sampleLedger [badCsvRow]).1.rows = [] ∧
    sampleLedger.rows ≠ [] := by
  decide

/- ------------------------------------------------------------------ C7 -/

/-- C7 (amended): `save_csv` followed by `load_csv` into any ledger (in
particular a fresh one) reproduces exactly the saved records with the same
field values, without error; the loaded ledger ends LOCKED whenever at
least one record was saved. For a zero-record ledger the records are
(trivially) reproduced but the fresh ledger's lock flag remains `false`
(see the counterexample). -/
theorem csv_roundtrip :
    ∀ (l0 l : Ledger),
      (load_csv l0 (save_csv l)).2 = none ∧
      (load_csv l0 (save_csv l)).1.rows = l.rows ∧
      (l.rows ≠ [] → (load_csv l0 (save_csv l)).1.target_currency_locked = true) := by
  intro l0 l
  have h := loadLoop_save l.rows []
  rw [List.nil_append] at h
  unfold load_csv save_csv
  rw [h]
  cases hr : l.rows with
  | nil => simp
  | cons first rest =>
      by_cases hf : first.target_currency = "" <;> simp [hf, hr]

theorem csv_roundtrip_witness :
    (load_csv (Xxx.init none) (save_csv sampleLedger)).1.rows = sampleLedger.rows ∧
    (load_csv (Xxx.init none) (save_csv sampleLedger)).1.target_currency_locked = true :=
  ⟨(csv_roundtrip (Xxx.init none) sampleLedger).2.1,
   (csv_roundtrip (Xxx.init none) sampleLedger).2.2 (by decide)⟩

/-- C7 counterexample: round-tripping a zero-record ledger into a fresh
ledger succeeds and reproduces the empty record set, but the loaded
ledger's `target_currency_locked` is `false`, not `true`. -/
theorem csv_roundtrip_empty_counterexample :
    (load_csv (Xxx.init none) (save_csv (Xxx.init none))).2 = none ∧
    (load_csv (Xxx.init none) (save_csv (Xxx.init none))).1.rows = [] ∧
    (load_csv (Xxx.init none) (save_csv (Xxx.init none))).1.target_currency_locked
      = false := by
  decide
